import Mathlib

/-!
Verification of the multi-formatter orchestration extension.

The development shallowly embeds the repository's core:
* `getFormatterChain`, `getSupportedLanguages` logic, `isMultiFormatterDefault`
  and `validateConfig` from `src/formatters/config.ts`;
* `hashContent`, `formatDocument` (the pipeline executor) from
  `src/formatters/formatter-service.ts`;
* `provideDocumentFormattingEdits` / `provideDocumentRangeFormattingEdits`
  from the formatter provider;
* the conflict scan (`checkForFormattingConflicts`) dedup logic from the
  extension entry module.

Host-editor state that the code reads and writes (the
`editor.defaultFormatter` slot at the chosen scope, the document text and its
dirty bit, the recursion flag, the output-channel log) is modelled as an
explicit `World` record that is threaded through the pipeline.  Each external
formatter is a black box: invoking the host format action may rewrite the
document text or fail, which is modelled by a `Behavior` function from the
active-formatter slot and current text to `Except`.  Exceptions are modelled
with `Except` results; operations the TypeScript `await`s outside the inner
try/catch (revealing the document, the final save) carry failure switches so
that error exit paths of the run are part of the model.
-/

/-- One stage of a chain: an opaque formatter identifier
(`FormatterConfig` in `src/formatters/types.ts`). -/
structure FormatterConfig where
  formatterId : String
deriving Repr, DecidableEq

/-- A produced text edit.  The service only ever emits a single edit replacing
the whole document (range `(0,0)`–end), so an edit is represented by the
replacement text it carries. -/
structure TextEdit where
  newText : String
deriving Repr, DecidableEq

/-- The configuration surface read by the config manager:
`multiformatter.languages`, the `"[languageId]"` block's
`multiformatter.formatters` key (method 1), the language-scoped
`multiformatter.formatters` (method 2), the global
`multiformatter.formatters`, and `multiformatter.formatterDelay`. -/
structure Config where
  supportedLanguages : List String
  langBlock : String → Option (List String)
  scopedFormatters : String → List String
  globalFormatters : List String
  formatterDelay : Option Nat

/-- The host-editor state owned or observed by one pipeline run. -/
structure World where
  /-- the `editor.defaultFormatter` slot at the chosen settings scope -/
  defaultFormatter : Option String
  /-- full text of the live document -/
  docText : String
  /-- whether the document has unsaved modifications -/
  docDirty : Bool
  /-- the service's private recursion flag `isFormatting` -/
  isFormatting : Bool
  /-- the output-channel log, oldest first -/
  log : List String
deriving Repr, DecidableEq

/-- Black-box behaviour of the environment during one run.  `formatResult`
is what `editor.action.formatDocument` does given the current
`editor.defaultFormatter` slot and document text: either the new document
text or a raised error.  `showDocFails` / `saveFails` model the awaited
`showTextDocument` / `document.save` calls throwing. -/
structure Behavior where
  formatResult : Option String → String → Except String String
  showDocFails : Bool
  saveFails : Bool

/-- The supported-language test of `getFormatterChain` (config.ts lines
39–48): exact match, or the `typescriptreact`/`typescript` and
`javascriptreact`/`javascript` family pairings. -/
def isLanguageSupported (supported : List String) (languageId : String) : Bool :=
  supported.any fun lang =>
    lang == languageId
    || (languageId == "typescriptreact" && lang == "typescript")
    || (languageId == "javascriptreact" && lang == "javascript")

/-- `FormatterConfigManager.getFormatterChain`.  `defaultFormatterId` is the
current value of `editor.defaultFormatter` for the document.  JavaScript
truthiness is preserved: an empty default-formatter string is falsy, while a
present-but-empty `multiformatter.formatters` array in the language block is
truthy (so it is selected, and the empty-list fallback then reaches the
global list). -/
def getFormatterChain (extId : String) (cfg : Config) (languageId : String)
    (defaultFormatterId : Option String) : List FormatterConfig :=
  let supportedLanguages := cfg.supportedLanguages
  if supportedLanguages.length > 0 && !isLanguageSupported supportedLanguages languageId then
    []
  else
    let base : List FormatterConfig :=
      match defaultFormatterId with
      | some fid => if fid != "" && fid != extId then [⟨fid⟩] else []
      | none => []
    let languageFormatters :=
      match cfg.langBlock languageId with
      | some fs => fs
      | none => cfg.scopedFormatters languageId
    let languageFormatters :=
      if languageFormatters.isEmpty then cfg.globalFormatters else languageFormatters
    base ++ (languageFormatters.filter fun fid =>
      fid != extId && fid != "multiformatter").map fun fid => ⟨fid⟩

/-- `FormatterConfigManager.isMultiFormatterDefault`. -/
def isMultiFormatterDefault (extId : String) (defaultFormatterId : Option String) : Bool :=
  defaultFormatterId == some extId

/-- `FormatterConfigManager.validateConfig`: an error message when the
orchestrator is the default formatter yet the resolved chain is empty. -/
def validateConfig (extId : String) (cfg : Config) (languageId : String)
    (defaultFormatterId : Option String) : Option String :=
  if isMultiFormatterDefault extId defaultFormatterId
      && (getFormatterChain extId cfg languageId defaultFormatterId).isEmpty then
    some "Multi-Formatter is set as the default formatter, but no formatters are configured."
  else
    none

/-- Wrap an integer to the signed 32-bit range, as JavaScript's `| 0` /
`&`-coercion (`ToInt32`) does. -/
def toInt32 (n : Int) : Int :=
  (n + 2 ^ 31) % 2 ^ 32 - 2 ^ 31

/-- UTF-16 code units of one character, matching `charCodeAt`. -/
def charCodes (c : Char) : List Nat :=
  let n := c.toNat
  if n < 65536 then [n]
  else [55296 + (n - 65536) / 1024, 56320 + (n - 65536) % 1024]

/-- One iteration of the hash loop:
`hash = ((hash << 5) - hash) + char; hash = hash & hash`. -/
def hashStep (hash : Int) (code : Nat) : Int :=
  toInt32 (toInt32 (hash * 32) - hash + code)

/-- `FormatterService.hashContent`: the rolling 32-bit hash over the UTF-16
code units, returned as its decimal string. -/
def hashContent (content : String) : String :=
  toString ((content.toList.map charCodes).flatten.foldl hashStep 0)

/-- `FormatterService.getFormatterDelay`:
`config.get('formatterDelay') || 300` (so a configured `0` is falsy and the
default 300 applies). -/
def getFormatterDelay (cfg : Config) : Nat :=
  match cfg.formatterDelay with
  | some d => if d = 0 then 300 else d
  | none => 300

/-- The log line emitted by `FormatterService.delay`. -/
def delayLog (cfg : Config) (description : String) (w : World) : World :=
  { w with log := w.log ++
      ["Waiting " ++ toString (getFormatterDelay cfg) ++ "ms " ++ description ++ "..."] }

/-- One iteration of the formatter loop of `FormatterService.formatDocument`
(lines 111–140), together with the threaded `lastContentHash`.  The body is
wrapped in try/catch in the source, so a failing format action only logs and
leaves the state to the next step.  The read-back poll of
`waitForFormatterToActivate` observes the slot just written, hence confirms
immediately. -/
def runStep (cfg : Config) (b : Behavior) (f : FormatterConfig)
    (wh : World × String) : World × String :=
  let w := wh.1
  let lastContentHash := wh.2
  let w := { w with log := w.log ++ ["Running formatter: " ++ f.formatterId] }
  let w := { w with defaultFormatter := some f.formatterId }
  let w := delayLog cfg "After setting formatter" w
  let w := { w with log := w.log ++
      ["Confirmed formatter " ++ f.formatterId ++ " is now active"] }
  match b.formatResult w.defaultFormatter w.docText with
  | .ok newText =>
      let w := delayLog cfg "After formatting" w
      let currentHash := hashContent newText
      let didFormat := currentHash != lastContentHash
      let w := { w with
        docText := newText,
        docDirty := w.docDirty || (newText != w.docText),
        log := w.log ++
          ["Formatter " ++ f.formatterId ++ " applied changes: " ++ toString didFormat,
           "Applied edits from " ++ f.formatterId] }
      (w, currentHash)
  | .error e =>
      ({ w with log := w.log ++
          ["Error applying formatter " ++ f.formatterId ++ ": " ++ e] },
       lastContentHash)

/-- The formatter loop over the whole chain. -/
def runSteps (cfg : Config) (b : Behavior) (steps : List FormatterConfig)
    (wh : World × String) : World × String :=
  match steps with
  | [] => wh
  | f :: rest => runSteps cfg b rest (runStep cfg b f wh)

/-- `FormatterService.formatDocument` (lines 55–178).  Returns the produced
edits (or the propagated error) together with the final host state. -/
def formatDocument (extId : String) (cfg : Config) (languageId : String)
    (b : Behavior) (w : World) : Except String (List TextEdit) × World :=
  if w.isFormatting then
    (.ok [], { w with log := w.log ++ ["Already formatting, skipping."] })
  else if !w.docDirty then
    (.ok [], { w with log := w.log ++ ["Document is not dirty, skipping formatting."] })
  else
    let w1 := { w with isFormatting := true,
                       log := w.log ++ ["Formatting document", "Language ID: " ++ languageId] }
    let formatters := getFormatterChain extId cfg languageId w1.defaultFormatter
    let w2 := { w1 with log := w1.log ++
        ["Found " ++ toString formatters.length ++ " formatters to apply"] }
    if formatters.isEmpty then
      (.ok [], { w2 with isFormatting := false,
                         log := w2.log ++ ["No formatters configured. Skipping formatting."] })
    else
      let originalContent := w2.docText
      let originalDefaultFormatter := w2.defaultFormatter
      let w3 := { w2 with log := w2.log ++
          ["Original default formatter: " ++ originalDefaultFormatter.getD "none"] }
      if b.showDocFails then
        (.error "could not show document", { w3 with isFormatting := false })
      else
        let w4 := delayLog cfg "Initial activation" w3
        let w5 := { w4 with log := w4.log ++
            ["Document dirty state before formatting: " ++ toString w4.docDirty] }
        let stepped := runSteps cfg b formatters (w5, hashContent originalContent)
        let w6 := { stepped.1 with defaultFormatter := originalDefaultFormatter }
        let w7 := delayLog cfg "After restoring formatter" w6
        let finalContent := w7.docText
        let hasChanges := originalContent != finalContent
        let w8 := { w7 with log := w7.log ++
            ["Document changed: " ++ toString hasChanges,
             "Original length: " ++ toString originalContent.length ++
               ", Final length: " ++ toString finalContent.length] }
        if w8.docDirty then
          if b.saveFails then
            (.error "save failed", { w8 with isFormatting := false })
          else
            let w9 := { w8 with docDirty := false,
                                log := w8.log ++
                                  ["Document is dirty, saving...",
                                   "=== All formatters applied successfully ==="] }
            if hasChanges then
              (.ok [⟨finalContent⟩], { w9 with isFormatting := false })
            else
              (.ok [], { w9 with isFormatting := false })
        else
          let w9 := { w8 with log := w8.log ++
              ["=== All formatters applied successfully ==="] }
          if hasChanges then
            (.ok [⟨finalContent⟩], { w9 with isFormatting := false })
          else
            (.ok [], { w9 with isFormatting := false })

/-- `FormatterProvider.provideDocumentFormattingEdits`: validate, surface any
validation error as a warning and return no edits, otherwise run the
pipeline.  The second component is the list of warning notifications shown. -/
def provideDocumentFormattingEdits (extId : String) (cfg : Config) (languageId : String)
    (b : Behavior) (w : World) :
    (Except String (List TextEdit) × World) × List String :=
  match validateConfig extId cfg languageId w.defaultFormatter with
  | some validationError => ((.ok [], w), [validationError])
  | none => (formatDocument extId cfg languageId b w, [])

/-- A requested range (start and end positions); the provider receives it but
never uses it. -/
structure Range where
  startLine : Nat
  startChar : Nat
  endLine : Nat
  endChar : Nat
deriving Repr, DecidableEq

/-- `FormatterProvider.provideDocumentRangeFormattingEdits`: show the
degradation notice and format the whole document.  Third component is the
list of information notifications shown. -/
def provideDocumentRangeFormattingEdits (extId : String) (cfg : Config) (languageId : String)
    (_range : Range) (b : Behavior) (w : World) :
    (Except String (List TextEdit) × World) × List String × List String :=
  let result := provideDocumentFormattingEdits extId cfg languageId b w
  (result.1, result.2,
   ["Range formatting not fully implemented yet. Formatting entire document instead."])

/-- Insertion into a JavaScript `Set` kept as an insertion-ordered list:
append only when absent. -/
def addUnique (xs : List String) (x : String) : List String :=
  if x ∈ xs then xs else xs ++ [x]

/-- Processing of one configured language inside the conflict scan
(`checkForFormattingConflicts`, extension module lines 350–440).  The state
carries (`languagesWithConflicts`, `currentConflicts`, warned language ids).
The per-language conflict condition — the layered
`editor.defaultFormatter` / `editor.formatOnSave` reads — is abstracted as
the boolean `hasConflict`. -/
def scanStep (hasConflict : String → Bool) (st : List String × List String × List String)
    (languageId : String) : List String × List String × List String :=
  if hasConflict languageId then
    let current := addUnique st.2.1 languageId
    if languageId ∈ st.1 then
      (st.1, current, st.2.2)
    else
      (addUnique st.1 languageId, current, st.2.2 ++ [languageId])
  else
    st

/-- Outcome of one conflict scan: the updated `languagesWithConflicts` set,
the languages for which a warning was shown on this scan, and the languages
for which a resolution notice was shown on this scan. -/
structure ScanResult where
  conflicts : List String
  warnings : List String
  notices : List String
deriving Repr, DecidableEq

/-- The conflict scan `checkForFormattingConflicts`: with warnings disabled,
clear everything and emit nothing; otherwise walk the configured languages
warning on each newly conflicted one, then walk a snapshot of the (updated)
conflict set emitting one resolution notice for, and removing, every
language not currently conflicted. -/
def checkForFormattingConflicts (showWarnings : Bool) (languages : List String)
    (hasConflict : String → Bool) (languagesWithConflicts : List String) : ScanResult :=
  if !showWarnings then ⟨[], [], []⟩
  else
    let r := languages.foldl (scanStep hasConflict) (languagesWithConflicts, [], [])
    ⟨r.1.filter (fun l => l ∈ r.2.1), r.2.2, r.1.filter (fun l => l ∉ r.2.1)⟩

/-! ## Concrete fixtures used by witnesses and counterexamples -/

/-- A configuration with no allow-list, no per-language formatters and one
global formatter. -/
def cfgW : Config := ⟨[], fun _ => none, fun _ => [], ["fmtA"], none⟩

/-- An idle world: another tool is the default formatter, the document is
dirty, no run is in progress. -/
def wIdle : World := ⟨some "other.fmt", "x", true, false, []⟩

/-- A world in which a run is already in progress. -/
def wBusy : World := ⟨some "other.fmt", "x", true, true, []⟩

/-- A world whose document has no unsaved modifications. -/
def wClean : World := ⟨some "other.fmt", "x", false, false, []⟩

/-- A benign environment: formatting keeps the text, nothing throws. -/
def bId : Behavior := ⟨fun _ t => .ok t, false, false⟩

/-- An environment whose format action always rewrites the document to
`"Y"`. -/
def bUp : Behavior := ⟨fun _ _ => .ok "Y", false, false⟩

/-- An environment in which `fmtA` always throws and `fmtB` formats to
`"z"`. -/
def bBad : Behavior :=
  ⟨fun fid _ => if fid == some "fmtA" then .error "boom" else .ok "z", false, false⟩

/-- A starting pipeline state for the loop-level witness. -/
def whStart : World × String := (⟨some "other.fmt", "x", true, true, []⟩, "0")

/-- A configuration in which the `typescript` family has per-language
formatters, `typescriptreact` has none, and a global list exists. -/
def c8Config : Config :=
  ⟨[], fun l => if l == "typescript" then some ["tsfmt"] else none,
   fun l => if l == "typescript" then ["tsfmt"] else [], ["globalfmt"], none⟩

/-- A configuration whose allow-list contains only `python`. -/
def c5Cfg : Config := ⟨["python"], fun _ => none, fun _ => [], ["black"], none⟩

/-- A configuration with no formatters anywhere. -/
def c10Cfg : Config := ⟨[], fun _ => none, fun _ => [], [], none⟩

/-- A world in which the orchestrator itself is the default formatter. -/
def c10W : World := ⟨some "kroe.multiformatter", "x", true, false, []⟩

/-! ## Helper lemmas about the pipeline loop and the conflict scan -/

@[simp] theorem delayLog_defaultFormatter (cfg : Config) (d : String) (w : World) :
    (delayLog cfg d w).defaultFormatter = w.defaultFormatter := rfl

@[simp] theorem delayLog_docText (cfg : Config) (d : String) (w : World) :
    (delayLog cfg d w).docText = w.docText := rfl

@[simp] theorem delayLog_docDirty (cfg : Config) (d : String) (w : World) :
    (delayLog cfg d w).docDirty = w.docDirty := rfl

@[simp] theorem delayLog_isFormatting (cfg : Config) (d : String) (w : World) :
    (delayLog cfg d w).isFormatting = w.isFormatting := rfl

theorem runStep_docDirty (cfg : Config) (b : Behavior) (f : FormatterConfig)
    (wh : World × String) (h : wh.1.docDirty = true) :
    ((runStep cfg b f wh).1).docDirty = true := by
  unfold runStep delayLog
  dsimp only
  split <;> simp [h]

theorem runSteps_docDirty (cfg : Config) (b : Behavior) (steps : List FormatterConfig) :
    ∀ wh : World × String, wh.1.docDirty = true → ((runSteps cfg b steps wh).1).docDirty = true := by
  induction steps with
  | nil => intro wh h; exact h
  | cons f rest ih => intro wh h; exact ih _ (runStep_docDirty cfg b f wh h)

theorem runStep_log_mem (cfg : Config) (b : Behavior) (f : FormatterConfig)
    (wh : World × String) (x : String) (h : x ∈ wh.1.log) :
    x ∈ ((runStep cfg b f wh).1).log := by
  unfold runStep delayLog
  dsimp only
  split <;> simp [h]

theorem runSteps_log_mem (cfg : Config) (b : Behavior) (steps : List FormatterConfig) :
    ∀ (wh : World × String) (x : String), x ∈ wh.1.log → x ∈ ((runSteps cfg b steps wh).1).log := by
  induction steps with
  | nil => intro wh x h; exact h
  | cons f rest ih => intro wh x h; exact ih _ x (runStep_log_mem cfg b f wh x h)

theorem runStep_log_running (cfg : Config) (b : Behavior) (f : FormatterConfig)
    (wh : World × String) :
    ("Running formatter: " ++ f.formatterId) ∈ ((runStep cfg b f wh).1).log := by
  unfold runStep delayLog
  dsimp only
  split <;> simp

theorem runSteps_attempted (cfg : Config) (b : Behavior) :
    ∀ (steps : List FormatterConfig) (wh : World × String) (g : FormatterConfig), g ∈ steps →
      ("Running formatter: " ++ g.formatterId) ∈ ((runSteps cfg b steps wh).1).log := by
  intro steps
  induction steps with
  | nil => intro wh g h; cases h
  | cons f rest ih =>
    intro wh g h
    rcases List.mem_cons.mp h with rfl | h
    · exact runSteps_log_mem cfg b rest _ _ (runStep_log_running cfg b g wh)
    · exact ih _ g h

theorem runStep_log_error (cfg : Config) (b : Behavior) (f : FormatterConfig)
    (wh : World × String) (e : String)
    (h : b.formatResult (some f.formatterId) wh.1.docText = .error e) :
    ("Error applying formatter " ++ f.formatterId ++ ": " ++ e) ∈ ((runStep cfg b f wh).1).log := by
  unfold runStep delayLog
  dsimp only
  rw [h]
  simp

theorem runStep_error_state (cfg : Config) (b : Behavior) (f : FormatterConfig)
    (wh : World × String) (e : String)
    (h : b.formatResult (some f.formatterId) wh.1.docText = .error e) :
    ((runStep cfg b f wh).1).docText = wh.1.docText ∧ (runStep cfg b f wh).2 = wh.2 := by
  unfold runStep delayLog
  dsimp only
  rw [h]
  simp

theorem runStep_docText_congr (cfg : Config) (b : Behavior) (f : FormatterConfig)
    (wh wh' : World × String) (h : wh.1.docText = wh'.1.docText) :
    ((runStep cfg b f wh).1).docText = ((runStep cfg b f wh').1).docText := by
  unfold runStep delayLog
  dsimp only
  rw [h]
  split <;> simp

theorem runSteps_docText_congr (cfg : Config) (b : Behavior) :
    ∀ (steps : List FormatterConfig) (wh wh' : World × String),
      wh.1.docText = wh'.1.docText →
      ((runSteps cfg b steps wh).1).docText = ((runSteps cfg b steps wh').1).docText := by
  intro steps
  induction steps with
  | nil => intro wh wh' h; exact h
  | cons f rest ih => intro wh wh' h; exact ih _ _ (runStep_docText_congr cfg b f wh wh' h)

theorem mem_addUnique (xs : List String) (x y : String) :
    y ∈ addUnique xs x ↔ y ∈ xs ∨ y = x := by
  unfold addUnique
  split
  · next hx =>
    constructor
    · exact Or.inl
    · rintro (h | rfl)
      · exact h
      · exact hx
  · simp

theorem count_addUnique_le_one (xs : List String) (x y : String)
    (h : xs.count y ≤ 1) : (addUnique xs x).count y ≤ 1 := by
  unfold addUnique
  split
  · exact h
  · next hx =>
    rw [List.count_append, List.count_singleton']
    by_cases he : x = y
    · subst he
      rw [List.count_eq_zero.mpr hx]
      simp
    · simp [he, h]

theorem scanFold_spec (hasConflict : String → Bool) (lang : String) :
    ∀ (langs cs cur ws : List String), langs.Nodup →
      ((lang ∈ (langs.foldl (scanStep hasConflict) (cs, cur, ws)).1) ↔
        (lang ∈ cs ∨ (lang ∈ langs ∧ hasConflict lang = true)))
      ∧ ((lang ∈ (langs.foldl (scanStep hasConflict) (cs, cur, ws)).2.1) ↔
        (lang ∈ cur ∨ (lang ∈ langs ∧ hasConflict lang = true)))
      ∧ ((langs.foldl (scanStep hasConflict) (cs, cur, ws)).2.2.count lang =
          ws.count lang + (if lang ∈ langs ∧ hasConflict lang = true ∧ lang ∉ cs then 1 else 0))
  | [], cs, cur, ws, _ => by simp
  | l :: ls, cs, cur, ws, hnd => by
    obtain ⟨hlm, hnd'⟩ := List.nodup_cons.mp hnd
    rw [List.foldl_cons]
    by_cases hc : hasConflict l = true
    · by_cases hmem : l ∈ cs
      · have hstep : scanStep hasConflict (cs, cur, ws) l = (cs, addUnique cur l, ws) := by
          simp [scanStep, hc, hmem]
        rw [hstep]
        obtain ⟨ih1, ih2, ih3⟩ := scanFold_spec hasConflict lang ls cs (addUnique cur l) ws hnd'
        refine ⟨?_, ?_, ?_⟩
        · rw [ih1]
          by_cases heq : lang = l
          · subst heq
            simp [hmem]
          · simp [List.mem_cons, heq]
        · rw [ih2, mem_addUnique]
          by_cases heq : lang = l
          · subst heq
            simp [hc, hlm]
          · simp [List.mem_cons, heq]
        · rw [ih3]
          by_cases heq : lang = l
          · subst heq
            simp [hmem, hlm]
          · simp [List.mem_cons, heq]
      · have hstep : scanStep hasConflict (cs, cur, ws) l =
            (addUnique cs l, addUnique cur l, ws ++ [l]) := by
          simp [scanStep, hc, hmem]
        rw [hstep]
        obtain ⟨ih1, ih2, ih3⟩ :=
          scanFold_spec hasConflict lang ls (addUnique cs l) (addUnique cur l) (ws ++ [l]) hnd'
        refine ⟨?_, ?_, ?_⟩
        · rw [ih1, mem_addUnique]
          by_cases heq : lang = l
          · subst heq
            simp [hc]
          · simp [List.mem_cons, heq]
        · rw [ih2, mem_addUnique]
          by_cases heq : lang = l
          · subst heq
            simp [hc]
          · simp [List.mem_cons, heq]
        · rw [ih3, List.count_append, List.count_singleton']
          by_cases heq : lang = l
          · subst heq
            simp [hc, hmem, hlm]
          · have hnadd : lang ∉ addUnique cs l ↔ lang ∉ cs := by
              rw [mem_addUnique]
              simp [heq]
            have heq' : ¬l = lang := fun hh => heq hh.symm
            simp [List.mem_cons, heq, hnadd, heq']
    · have hstep : scanStep hasConflict (cs, cur, ws) l = (cs, cur, ws) := by
        simp [scanStep, hc]
      rw [hstep]
      obtain ⟨ih1, ih2, ih3⟩ := scanFold_spec hasConflict lang ls cs cur ws hnd'
      refine ⟨?_, ?_, ?_⟩
      · rw [ih1]
        by_cases heq : lang = l
        · subst heq
          simp [hc]
        · simp [List.mem_cons, heq]
      · rw [ih2]
        by_cases heq : lang = l
        · subst heq
          simp [hc]
        · simp [List.mem_cons, heq]
      · rw [ih3]
        by_cases heq : lang = l
        · subst heq
          simp [hc]
        · simp [List.mem_cons, heq]

theorem scanFold_conflicts_count_le_one (hasConflict : String → Bool) (lang : String) :
    ∀ (langs cs cur ws : List String), cs.count lang ≤ 1 →
      ((langs.foldl (scanStep hasConflict) (cs, cur, ws)).1).count lang ≤ 1
  | [], _, _, _, h => h
  | l :: ls, cs, cur, ws, h => by
    rw [List.foldl_cons]
    unfold scanStep
    dsimp only
    split
    · split
      · exact scanFold_conflicts_count_le_one hasConflict lang ls _ _ _ h
      · exact scanFold_conflicts_count_le_one hasConflict lang ls _ _ _
          (count_addUnique_le_one cs l lang h)
    · exact scanFold_conflicts_count_le_one hasConflict lang ls _ _ _ h

/-! ## Claim theorems -/

/-- C1: for every pipeline run — whether the stepping phase completes
normally or exits via an error — the `editor.defaultFormatter` setting at
the chosen scope is restored to the value captured immediately before the
run started, so the setting after the run equals the setting before it. -/
theorem C1_default_formatter_restored (extId : String) (cfg : Config) (languageId : String)
    (b : Behavior) (w : World) :
    (formatDocument extId cfg languageId b w).2.defaultFormatter = w.defaultFormatter := by
  unfold formatDocument
  dsimp only
  repeat' split <;> try rfl

/-- C2: the recursion flag is false after every run that started idle,
regardless of outcome; and a format request arriving while the flag is held
returns an empty edit result leaving the world unchanged apart from the
skip log line — the chain, document and settings state of the in-progress
run are untouched. -/
theorem C2_recursion_flag (extId : String) (cfg : Config) (languageId : String)
    (b : Behavior) (w : World) :
    (w.isFormatting = false → (formatDocument extId cfg languageId b w).2.isFormatting = false)
    ∧ (w.isFormatting = true →
        formatDocument extId cfg languageId b w =
          (.ok [], { w with log := w.log ++ ["Already formatting, skipping."] })) := by
  constructor
  · intro h
    unfold formatDocument
    dsimp only
    repeat' split
    all_goals first | rfl | exact h
  · intro h
    unfold formatDocument
    simp [h]

theorem C2_recursion_flag_witness :
    ((formatDocument "kroe.multiformatter" cfgW "python" bId wIdle).2.isFormatting = false)
    ∧ (formatDocument "kroe.multiformatter" cfgW "python" bId wBusy =
        (.ok [], { wBusy with log := wBusy.log ++ ["Already formatting, skipping."] })) :=
  ⟨(C2_recursion_flag "kroe.multiformatter" cfgW "python" bId wIdle).1 rfl,
   (C2_recursion_flag "kroe.multiformatter" cfgW "python" bId wBusy).2 rfl⟩

/-- C3: if a step's formatter invocation raises an error, the error is
logged with the failing step's identifier and execution continues with the
next step — every step of the chain is still attempted, and the resulting
document text equals the text produced by the remaining steps alone. -/
theorem C3_step_error_isolated (cfg : Config) (b : Behavior) (f : FormatterConfig)
    (rest : List FormatterConfig) (wh : World × String) (e : String)
    (h : b.formatResult (some f.formatterId) wh.1.docText = .error e) :
    (("Error applying formatter " ++ f.formatterId ++ ": " ++ e) ∈
        ((runSteps cfg b (f :: rest) wh).1).log)
    ∧ (∀ g ∈ f :: rest, ("Running formatter: " ++ g.formatterId) ∈
        ((runSteps cfg b (f :: rest) wh).1).log)
    ∧ ((runSteps cfg b (f :: rest) wh).1).docText = ((runSteps cfg b rest wh).1).docText := by
  refine ⟨?_, ?_, ?_⟩
  · exact runSteps_log_mem cfg b rest _ _ (runStep_log_error cfg b f wh e h)
  · intro g hg
    exact runSteps_attempted cfg b (f :: rest) wh g hg
  · exact runSteps_docText_congr cfg b rest _ _ (runStep_error_state cfg b f wh e h).1

theorem C3_step_error_isolated_witness :
    bBad.formatResult (some "fmtA") whStart.1.docText = .error "boom"
    ∧ ((("Error applying formatter " ++ "fmtA" ++ ": " ++ "boom") ∈
          ((runSteps cfgW bBad (⟨"fmtA"⟩ :: [⟨"fmtB"⟩]) whStart).1).log)
      ∧ (∀ g ∈ (⟨"fmtA"⟩ : FormatterConfig) :: [⟨"fmtB"⟩],
          ("Running formatter: " ++ g.formatterId) ∈
            ((runSteps cfgW bBad (⟨"fmtA"⟩ :: [⟨"fmtB"⟩]) whStart).1).log)
      ∧ ((runSteps cfgW bBad (⟨"fmtA"⟩ :: [⟨"fmtB"⟩]) whStart).1).docText =
          ((runSteps cfgW bBad [⟨"fmtB"⟩] whStart).1).docText) :=
  ⟨rfl, C3_step_error_isolated cfgW bBad ⟨"fmtA"⟩ [⟨"fmtB"⟩] whStart "boom" rfl⟩

/-- C4: for every document with no unsaved modifications, running the
pipeline from an idle state is a no-op: an empty edit result, and the world
is unchanged apart from the skip log line — no formatter step runs and the
`editor.defaultFormatter` slot is never written. -/
theorem C4_not_dirty_noop (extId : String) (cfg : Config) (languageId : String)
    (b : Behavior) (w : World)
    (h1 : w.isFormatting = false) (h2 : w.docDirty = false) :
    formatDocument extId cfg languageId b w =
      (.ok [], { w with log := w.log ++ ["Document is not dirty, skipping formatting."] }) := by
  unfold formatDocument
  simp [h1, h2]

theorem C4_not_dirty_noop_witness :
    wClean.isFormatting = false ∧ wClean.docDirty = false
    ∧ formatDocument "kroe.multiformatter" cfgW "python" bId wClean =
        (.ok [], { wClean with log := wClean.log ++
            ["Document is not dirty, skipping formatting."] }) :=
  ⟨rfl, rfl, C4_not_dirty_noop "kroe.multiformatter" cfgW "python" bId wClean rfl rfl⟩

/-- C5: the resolved chain never contains the orchestrator's own extension
identifier; and when a non-empty allow-list is configured and the language is
neither in it nor a supported family variant of an entry, the chain is empty
regardless of all other settings. -/
theorem C5_chain_excludes_self_and_allow_list (extId : String) (cfg : Config)
    (languageId : String) (dfl : Option String) :
    (∀ f ∈ getFormatterChain extId cfg languageId dfl, f.formatterId ≠ extId)
    ∧ (cfg.supportedLanguages ≠ [] →
        isLanguageSupported cfg.supportedLanguages languageId = false →
        getFormatterChain extId cfg languageId dfl = []) := by
  constructor
  · intro f hf
    unfold getFormatterChain at hf
    dsimp only at hf
    split at hf
    · exact absurd hf (List.not_mem_nil f)
    · rcases List.mem_append.mp hf with hbase | hrest
      · cases dfl with
        | none => exact absurd hbase (List.not_mem_nil f)
        | some fid =>
          dsimp only at hbase
          split at hbase
          · next hcond =>
            simp only [List.mem_singleton] at hbase
            subst hbase
            simp only [Bool.and_eq_true, bne_iff_ne, ne_eq] at hcond
            exact hcond.2
          · exact absurd hbase (List.not_mem_nil f)
      · obtain ⟨fid, hmem, rfl⟩ := List.mem_map.mp hrest
        have hp := (List.mem_filter.mp hmem).2
        simp only [Bool.and_eq_true, bne_iff_ne, ne_eq] at hp
        exact hp.1
  · intro hne hsup
    unfold getFormatterChain
    rw [if_pos]
    simp [hsup, List.length_pos.mpr hne]

theorem C5_chain_excludes_self_and_allow_list_witness :
    c5Cfg.supportedLanguages ≠ []
    ∧ isLanguageSupported c5Cfg.supportedLanguages "ruby" = false
    ∧ getFormatterChain "kroe.multiformatter" c5Cfg "ruby" (some "other.fmt") = [] :=
  ⟨by decide, by decide,
   (C5_chain_excludes_self_and_allow_list "kroe.multiformatter" c5Cfg "ruby"
      (some "other.fmt")).2 (by decide) (by decide)⟩

/-- C6: every completed run returns an empty edit result exactly when the
final document text equals the text captured at the start of the run, and
otherwise exactly one edit replacing the whole document with the final
text. -/
theorem C6_edit_iff_text_changed (extId : String) (cfg : Config) (languageId : String)
    (b : Behavior) (w : World)
    (h1 : w.isFormatting = false) (h2 : w.docDirty = true)
    (h3 : getFormatterChain extId cfg languageId w.defaultFormatter ≠ [])
    (h4 : b.showDocFails = false) (h5 : b.saveFails = false) :
    ∃ edits, (formatDocument extId cfg languageId b w).1 = .ok edits
      ∧ (edits = [] ↔ (formatDocument extId cfg languageId b w).2.docText = w.docText)
      ∧ ((formatDocument extId cfg languageId b w).2.docText ≠ w.docText →
          edits = [⟨(formatDocument extId cfg languageId b w).2.docText⟩]) := by
  unfold formatDocument
  rw [if_neg (by simp [h1]), if_neg (by simp [h2])]
  dsimp only
  rw [if_neg (by simpa using h3), if_neg (by simp [h4])]
  rw [if_pos (by exact runSteps_docDirty cfg b _ _ h2)]
  rw [if_neg (by rw [h5]; exact Bool.false_ne_true)]
  split
  · next hch =>
    simp only [bne_iff_ne, ne_eq, delayLog_docText] at hch
    refine ⟨_, rfl, ?_, ?_⟩
    · simp only [delayLog_docText]
      constructor
      · intro hx
        cases hx
      · intro hx
        exact absurd hx.symm hch
    · intro _
      rfl
  · next hch =>
    simp only [bne_iff_ne, ne_eq, not_not, delayLog_docText] at hch
    exact ⟨[], rfl, ⟨fun _ => hch.symm, fun _ => rfl⟩, fun hx => absurd hch.symm hx⟩

theorem C6_edit_iff_text_changed_witness :
    wIdle.isFormatting = false ∧ wIdle.docDirty = true
    ∧ getFormatterChain "kroe.multiformatter" cfgW "python" wIdle.defaultFormatter ≠ []
    ∧ ∃ edits, (formatDocument "kroe.multiformatter" cfgW "python" bUp wIdle).1 = .ok edits
        ∧ (edits = [] ↔
            (formatDocument "kroe.multiformatter" cfgW "python" bUp wIdle).2.docText =
              wIdle.docText)
        ∧ ((formatDocument "kroe.multiformatter" cfgW "python" bUp wIdle).2.docText ≠
              wIdle.docText →
            edits = [⟨(formatDocument "kroe.multiformatter" cfgW "python" bUp wIdle).2.docText⟩]) :=
  ⟨rfl, rfl, by decide,
   C6_edit_iff_text_changed "kroe.multiformatter" cfgW "python" bUp wIdle rfl rfl
     (by decide) rfl rfl⟩

/-- C7: across conflict scans, a language whose conflict condition holds is
warned exactly once on the scan where it first holds (it enters the conflict
set), not re-warned while it stays both conflicted and recorded, given
exactly one resolution notice and removed on the first scan where the
condition no longer holds, and left silent when it is neither conflicted nor
recorded — so it is warned again only after the conflict clears and then
reoccurs. -/
theorem C7_conflict_warning_dedup (languages : List String) (hasConflict : String → Bool)
    (prev : List String) (lang : String)
    (hlangs : languages.Nodup) (hprev : prev.Nodup) (hmem : lang ∈ languages) :
    ((hasConflict lang = true ∧ lang ∉ prev) →
        (checkForFormattingConflicts true languages hasConflict prev).warnings.count lang = 1
        ∧ lang ∈ (checkForFormattingConflicts true languages hasConflict prev).conflicts)
    ∧ ((hasConflict lang = true ∧ lang ∈ prev) →
        (checkForFormattingConflicts true languages hasConflict prev).warnings.count lang = 0
        ∧ lang ∈ (checkForFormattingConflicts true languages hasConflict prev).conflicts)
    ∧ ((hasConflict lang = false ∧ lang ∈ prev) →
        (checkForFormattingConflicts true languages hasConflict prev).notices.count lang = 1
        ∧ lang ∉ (checkForFormattingConflicts true languages hasConflict prev).conflicts)
    ∧ ((hasConflict lang = false ∧ lang ∉ prev) →
        (checkForFormattingConflicts true languages hasConflict prev).notices.count lang = 0
        ∧ (checkForFormattingConflicts true languages hasConflict prev).warnings.count lang = 0
        ∧ lang ∉ (checkForFormattingConflicts true languages hasConflict prev).conflicts) := by
  obtain ⟨s1, s2, s3⟩ := scanFold_spec hasConflict lang languages prev [] [] hlangs
  have hle : ((languages.foldl (scanStep hasConflict) (prev, [], [])).1).count lang ≤ 1 :=
    scanFold_conflicts_count_le_one hasConflict lang languages prev [] []
      (List.nodup_iff_count_le_one.mp hprev lang)
  have hck : checkForFormattingConflicts true languages hasConflict prev =
      ⟨(languages.foldl (scanStep hasConflict) (prev, [], [])).1.filter
          (fun l => l ∈ (languages.foldl (scanStep hasConflict) (prev, [], [])).2.1),
        (languages.foldl (scanStep hasConflict) (prev, [], [])).2.2,
        (languages.foldl (scanStep hasConflict) (prev, [], [])).1.filter
          (fun l => l ∉ (languages.foldl (scanStep hasConflict) (prev, [], [])).2.1)⟩ := rfl
  rw [hck]
  refine ⟨?_, ?_, ?_, ?_⟩
  · rintro ⟨hc, hp⟩
    constructor
    · rw [s3]
      simp [hmem, hc, hp]
    · dsimp only
      rw [List.mem_filter]
      constructor
      · exact s1.mpr (Or.inr ⟨hmem, hc⟩)
      · simp only [decide_eq_true_eq]
        exact s2.mpr (Or.inr ⟨hmem, hc⟩)
  · rintro ⟨hc, hp⟩
    constructor
    · rw [s3]
      simp [hp]
    · dsimp only
      rw [List.mem_filter]
      constructor
      · exact s1.mpr (Or.inr ⟨hmem, hc⟩)
      · simp only [decide_eq_true_eq]
        exact s2.mpr (Or.inr ⟨hmem, hc⟩)
  · rintro ⟨hc, hp⟩
    have hnotcur : lang ∉ (languages.foldl (scanStep hasConflict) (prev, [], [])).2.1 := by
      intro hx
      rcases s2.mp hx with hx | ⟨_, hx⟩
      · exact absurd hx (List.not_mem_nil lang)
      · rw [hc] at hx
        cases hx
    have hincs : lang ∈ (languages.foldl (scanStep hasConflict) (prev, [], [])).1 :=
      s1.mpr (Or.inl hp)
    constructor
    · dsimp only
      have hcount : List.count lang
          ((languages.foldl (scanStep hasConflict) (prev, [], [])).1.filter
            (fun l => l ∉ (languages.foldl (scanStep hasConflict) (prev, [], [])).2.1)) =
          List.count lang (languages.foldl (scanStep hasConflict) (prev, [], [])).1 :=
        List.count_filter (by simp only [decide_eq_true_eq]; exact hnotcur)
      rw [hcount]
      have hpos : 0 < List.count lang (languages.foldl (scanStep hasConflict) (prev, [], [])).1 :=
        List.count_pos_iff.mpr hincs
      omega
    · dsimp only
      rw [List.mem_filter]
      rintro ⟨_, hx⟩
      simp only [decide_eq_true_eq] at hx
      exact hnotcur hx
  · rintro ⟨hc, hp⟩
    have hnotcs : lang ∉ (languages.foldl (scanStep hasConflict) (prev, [], [])).1 := by
      intro hx
      rcases s1.mp hx with hx | ⟨_, hx⟩
      · exact hp hx
      · rw [hc] at hx
        cases hx
    refine ⟨?_, ?_, ?_⟩
    · dsimp only
      rw [List.count_eq_zero]
      intro hx
      exact hnotcs (List.mem_filter.mp hx).1
    · rw [s3]
      simp [hc]
    · dsimp only
      rw [List.mem_filter]
      rintro ⟨hx, _⟩
      exact hnotcs hx

theorem C7_conflict_warning_dedup_witness :
    (checkForFormattingConflicts true ["x"] (fun l => l == "x") []).warnings.count "x" = 1
    ∧ "x" ∈ (checkForFormattingConflicts true ["x"] (fun l => l == "x") []).conflicts :=
  (C7_conflict_warning_dedup ["x"] (fun l => l == "x") [] "x"
      (by decide) (by decide) (by decide)).1 ⟨by decide, by decide⟩

/-- C8, counterexample: for `typescriptreact` the exact per-language lookup
yields no formatters while the `typescript` family entry does, yet the
resolver returns the global list and never the family's — refuting the
claimed family fallback for the formatters lookup. -/
theorem C8_family_fallback_cex :
    (c8Config.langBlock "typescriptreact").getD (c8Config.scopedFormatters "typescriptreact") = []
    ∧ c8Config.langBlock "typescript" = some ["tsfmt"]
    ∧ getFormatterChain "kroe.multiformatter" c8Config "typescriptreact" none = [⟨"globalfmt"⟩]
    ∧ FormatterConfig.mk "tsfmt" ∉
        getFormatterChain "kroe.multiformatter" c8Config "typescriptreact" none := by
  refine ⟨rfl, rfl, rfl, ?_⟩
  decide

/-- C8, amended: when the exact-language lookup (language block, then
language-scoped setting) yields no formatters, the resolver falls back
directly to the global formatters list; the language-family mapping plays no
part in the formatters lookup — the chain is the same as with no
per-language configuration at all. -/
theorem C8_family_fallback_amended (extId : String) (cfg : Config) (languageId : String)
    (dfl : Option String)
    (h : (cfg.langBlock languageId).getD (cfg.scopedFormatters languageId) = []) :
    getFormatterChain extId cfg languageId dfl =
      getFormatterChain extId
        { cfg with langBlock := fun _ => none, scopedFormatters := fun _ => [] }
        languageId dfl := by
  unfold getFormatterChain
  cases hb : cfg.langBlock languageId with
  | none =>
    rw [hb] at h
    simp only [Option.getD_none] at h
    simp [hb, h]
  | some fs =>
    rw [hb] at h
    simp only [Option.getD_some] at h
    simp [hb, h]

theorem C8_family_fallback_amended_witness :
    (c8Config.langBlock "css").getD (c8Config.scopedFormatters "css") = []
    ∧ getFormatterChain "kroe.multiformatter" c8Config "css" none =
        getFormatterChain "kroe.multiformatter"
          { c8Config with langBlock := fun _ => none, scopedFormatters := fun _ => [] }
          "css" none :=
  ⟨by decide, C8_family_fallback_amended "kroe.multiformatter" c8Config "css" none (by decide)⟩

/-- C9: requesting range formatting produces exactly the same edit result as
full-document formatting — the range argument has no effect — and the
degradation notice is shown. -/
theorem C9_range_formats_whole_document (extId : String) (cfg : Config) (languageId : String)
    (r1 r2 : Range) (b : Behavior) (w : World) :
    provideDocumentRangeFormattingEdits extId cfg languageId r1 b w =
      provideDocumentRangeFormattingEdits extId cfg languageId r2 b w
    ∧ (provideDocumentRangeFormattingEdits extId cfg languageId r1 b w).1 =
        (provideDocumentFormattingEdits extId cfg languageId b w).1
    ∧ (provideDocumentRangeFormattingEdits extId cfg languageId r1 b w).2.1 =
        (provideDocumentFormattingEdits extId cfg languageId b w).2
    ∧ (provideDocumentRangeFormattingEdits extId cfg languageId r1 b w).2.2 =
        ["Range formatting not fully implemented yet. Formatting entire document instead."] :=
  ⟨rfl, rfl, rfl, rfl⟩

/-- C10: when the orchestrator itself is the configured default formatter but
the resolved chain is empty, the public formatting entry point surfaces the
configuration warning and returns no edits with the world unchanged — the
pipeline is never started, so no setting write, delay or format invocation
occurs. -/
theorem C10_misconfigured_default_noop (extId : String) (cfg : Config) (languageId : String)
    (b : Behavior) (w : World)
    (h1 : w.defaultFormatter = some extId)
    (h2 : getFormatterChain extId cfg languageId w.defaultFormatter = []) :
    provideDocumentFormattingEdits extId cfg languageId b w =
      ((.ok [], w),
       ["Multi-Formatter is set as the default formatter, but no formatters are configured."]) := by
  rw [h1] at h2
  simp [provideDocumentFormattingEdits, validateConfig, isMultiFormatterDefault, h1, h2]

theorem C10_misconfigured_default_noop_witness :
    c10W.defaultFormatter = some "kroe.multiformatter"
    ∧ getFormatterChain "kroe.multiformatter" c10Cfg "python" c10W.defaultFormatter = []
    ∧ provideDocumentFormattingEdits "kroe.multiformatter" c10Cfg "python" bId c10W =
        ((.ok [], c10W),
         ["Multi-Formatter is set as the default formatter, but no formatters are configured."]) :=
  ⟨rfl, by decide,
   C10_misconfigured_default_noop "kroe.multiformatter" c10Cfg "python" bId c10W rfl (by decide)⟩
